import Mathlib

/-!
Verification of the juno L1-fact-resolution and state-commitment engine.

The development shallowly embeds the Go sources of the `starknet` package
(`src/unnamed/part_000`, `src/unnamed/part_001`) together with the Pedersen
commitment primitive (whose implementation is only witnessed in the repository
by its test file, embedded in `src/assets/js/066d965a.ffec5289.js`; it is
modelled from the spec and the published StarkWare reference algorithm and is
checked against the repository's own reference vectors by kernel computation).

Machine integers are modelled as `Nat` with explicit `% 2 ^ 64` where Go
performs `uint64` conversions; Go strings are `List Char`; fallible Go code
returns `Except`/`Option`; the process-killing `log.Panic` path is a dedicated
constructor of an outcome type.
-/

set_option maxRecDepth 100000

/-! ## Commitment primitive (Pedersen hash)

Modelled from the spec: the implementation of `pedersen.Digest` is not under
`src/` (only its test file `TestDigest`/`TestArrayDigest` is); the spec says it
is "deterministic, pure, defined over the scalar field of a fixed elliptic
curve" and "must reproduce a published reference implementation bit-for-bit".
We therefore embed the published StarkWare Pedersen hash: the curve
`y² = x³ + x + beta` over the 252-bit prime field, hashing
`(a, b) ↦ x(shift + a_low·P0 + a_high·P1 + b_low·P2 + b_high·P3)`.
Scalar multiplications are computed in Jacobian coordinates (a projective
representation of the same affine reference computation). -/

/-- Modelled from the spec: the prime of the scalar field of the fixed curve,
`2²⁵¹ + 17·2¹⁹² + 1` (the field the spec's "commitment element" lives in). -/
def P : Nat := 2 ^ 251 + 17 * 2 ^ 192 + 1

/-- Field multiplication. -/
def mulm (a b : Nat) : Nat := a * b % P

/-- Field addition. -/
def addm (a b : Nat) : Nat := (a + b) % P

/-- Field subtraction (operands need not be reduced). -/
def subm (a b : Nat) : Nat := (a % P + (P - b % P)) % P

/-- A point in Jacobian coordinates: `(x/z², y/z³)` affine; `z = 0` is the
point at infinity. -/
structure Jac where
  x : Nat
  y : Nat
  z : Nat
deriving DecidableEq

/-- The point at infinity. -/
def jacInf : Jac := ⟨1, 1, 0⟩

/-- Point doubling on `y² = x³ + x + beta` (curve coefficient `alpha = 1`). -/
def jacDouble (p : Jac) : Jac :=
  if p.z = 0 then jacInf
  else if p.y = 0 then jacInf
  else
    let yy := mulm p.y p.y
    let s := mulm 4 (mulm p.x yy)
    let zz := mulm p.z p.z
    let m := addm (mulm 3 (mulm p.x p.x)) (mulm zz zz)
    let x3 := subm (mulm m m) (mulm 2 s)
    let y3 := subm (mulm m (subm s x3)) (mulm 8 (mulm yy yy))
    let z3 := mulm 2 (mulm p.y p.z)
    ⟨x3, y3, z3⟩

/-- Point addition in Jacobian coordinates. -/
def jacAdd (p q : Jac) : Jac :=
  if p.z = 0 then q
  else if q.z = 0 then p
  else
    let z1z1 := mulm p.z p.z
    let z2z2 := mulm q.z q.z
    let u1 := mulm p.x z2z2
    let u2 := mulm q.x z1z1
    let s1 := mulm p.y (mulm q.z z2z2)
    let s2 := mulm q.y (mulm p.z z1z1)
    if u1 = u2 then
      if s1 = s2 then jacDouble p else jacInf
    else
      let h := subm u2 u1
      let hh := mulm h h
      let hhh := mulm h hh
      let r := subm s2 s1
      let v := mulm u1 hh
      let x3 := subm (subm (mulm r r) hhh) (mulm 2 v)
      let y3 := subm (mulm r (subm v x3)) (mulm s1 hhh)
      let z3 := mulm h (mulm p.z q.z)
      ⟨x3, y3, z3⟩

/-- Double-and-add scalar multiplication accumulated onto `acc`:
`acc + k·base`, processing `fuel` bits of `k` (the per-bit loop of the
reference pedersen hash). -/
def smulAux : Nat → Nat → Jac → Jac → Jac
  | 0, _, acc, _ => acc
  | fuel + 1, k, acc, base =>
    smulAux fuel (k / 2) (if k % 2 = 1 then jacAdd acc base else acc)
      (jacDouble base)

/-- Binary modular exponentiation worker. -/
def powModAux : Nat → Nat → Nat → Nat → Nat
  | 0, _, _, acc => acc
  | fuel + 1, b, e, acc =>
    if e = 0 then acc
    else powModAux fuel (mulm b b) (e / 2) (if e % 2 = 1 then mulm acc b else acc)

/-- Modular exponentiation `b ^ e mod P` (exponents below `2²⁵⁶`). -/
def powMod (b e : Nat) : Nat := powModAux 256 (b % P) e (1 % P)

/-- Modular inverse by Fermat's little theorem. -/
def invMod (a : Nat) : Nat := powMod a (P - 2)

/-- Modelled from the spec: the shift point of the reference Pedersen
parameters. -/
def shiftPoint : Jac :=
  ⟨0x49ee3eba8c1600700ee1b87eb599f16716b0b1022947733551fde4050ca6804,
   0x3ca0cfe4b3bc6ddf346d49d06ea0ed34e621062c0e056c1d0405d266e10268a, 1⟩

/-- Modelled from the spec: reference constant point hashing the low 248 bits
of the first input. -/
def pt0 : Jac :=
  ⟨0x234287dcbaffe7f969c748655fca9e58fa8120b6d56eb0c1080d17957ebe47b,
   0x3b056f100f96fb21e889527d41f4e39940135dd7a6c94cc6ed0268ee89e5615, 1⟩

/-- Modelled from the spec: reference constant point hashing the high 4 bits
of the first input. -/
def pt1 : Jac :=
  ⟨0x4fa56f376c83db33f9dab2656558f3399099ec1de5e3018b7a6932dba8aa378,
   0x3fa0984c931c9e38113e0c0e47e4401562761f92a7a23b45168f4e80ff5b54d, 1⟩

/-- Modelled from the spec: reference constant point hashing the low 248 bits
of the second input. -/
def pt2 : Jac :=
  ⟨0x4ba4cc166be8dec764910f75b45f74b40c690c74709e90f3aa372f0bd2d6997,
   0x40301cf5c1751f4b971e46c4ede85fcac5c59a5ce5ae7c48151f27b24b219c, 1⟩

/-- Modelled from the spec: reference constant point hashing the high 4 bits
of the second input. -/
def pt3 : Jac :=
  ⟨0x54302dcb0e6cc1c6e44cca8f61a63bb2ca65048d53fb325d36ff12c49a58202,
   0x1b77b3e37d13504b348046268d8ae25ce98ad783c25561a879dcc77e99c2426, 1⟩

/-- The Pedersen hash point `shift + a_low·P0 + a_high·P1 + b_low·P2 +
b_high·P3`, accumulated exactly as the reference per-bit loop. -/
def hashJac (a b : Nat) : Jac :=
  let acc := smulAux 248 (a % 2 ^ 248) shiftPoint pt0
  let acc := smulAux 4 (a / 2 ^ 248) acc pt1
  let acc := smulAux 248 (b % 2 ^ 248) acc pt2
  smulAux 4 (b / 2 ^ 248) acc pt3

/-- Affine x-coordinate of a Jacobian point (`x / z²`, reduced mod `P`). -/
def affineX (p : Jac) : Nat :=
  mulm p.x (invMod (mulm p.z p.z))

/-- Modelled from the spec: `pedersen.Digest`, whose implementation is not
under `src/` (only its tests are). The deterministic pure Pedersen hash
`𝔽² → 𝔽` of the spec's commitment primitive. -/
def Digest (a b : Nat) : Nat := affineX (hashJac a b)

/-- Modelled from the spec: the failure of the commitment primitive on inputs
outside the scalar field (the spec defines `Digest` only "over the scalar
field of a fixed elliptic curve"; `pedersen.Digest` as called by
`contractState` in `src/unnamed/part_000` additionally returns an error). -/
inductive DigestError where
  | inputNotInField
deriving DecidableEq

/-- Modelled from the spec: the fallible interface of `pedersen.Digest` used by
`contractState` (`val, err := pedersen.Digest(...)`): an error exactly when an
input is not a field element, else the pure Pedersen hash. -/
def digestE (a b : Nat) : Except DigestError Nat :=
  if a < P ∧ b < P then .ok (Digest a b) else .error .inputNotInField

/-- Modelled from the spec: `pedersen.ArrayDigest`, whose implementation is not
under `src/` (only `TestArrayDigest` is). The spec: "chains `Digest` pairwise
over the sequence and folds in the sequence length as a final input"; defined
for `n = 0` as a base case. -/
def ArrayDigest (data : List Nat) : Nat :=
  Digest (data.foldl Digest 0) data.length

/-! ## State materializer: per-contract commitment

From `src/unnamed/part_000`, `contractState` (lines 69–96): three chained
`pedersen.Digest` calls computing `h(h(h(contract_hash, storage_root), 0), 0)`;
each failed call runs `log.Default...Panic(...)`, which kills the process. -/

/-- Outcome of running `contractState`: a committed leaf value, a process
panic (`log.Panic`), or a halted materializer returning the error to its
caller. The source only ever produces the first two; `halted` exists so the
spec's claimed behavior is expressible. -/
inductive MatOutcome where
  | committed (v : Nat)
  | panicked
  | halted
deriving DecidableEq

/-- From `src/unnamed/part_000` lines 69–96: `contractState` computes
`h(h(h(contract_hash, storage_root), 0), 0)`, panicking (via `log...Panic`)
if any of the three `pedersen.Digest` calls fails. -/
def contractState (contractHash storageRoot : Nat) : MatOutcome :=
  match digestE contractHash storageRoot with
  | .error _ => .panicked
  | .ok v1 =>
    match digestE v1 0 with
    | .error _ => .panicked
    | .ok v2 =>
      match digestE v2 0 with
      | .error _ => .panicked
      | .ok v3 => .committed v3

/-! ## remove0x

From `src/unnamed/part_000` lines 98–112: iterate over the string's
characters, start copying at the first character that is neither `'0'` nor
`'x'`; if nothing was copied return `"0"`. Strings are `List Char`. -/

/-- The character loop of `remove0x`: `found` latches once a character other
than `'0'`/`'x'` is seen, and characters are appended to `answer` from then
on. -/
def remove0xLoop : List Char → Bool → List Char → List Char
  | [], _, answer => answer
  | c :: rest, found, answer =>
    let found1 := found || (c != '0' && c != 'x')
    remove0xLoop rest found1 (if found1 then answer ++ [c] else answer)

/-- From `src/unnamed/part_000` lines 98–112: `remove0x`. -/
def remove0x (s : List Char) : List Char :=
  let answer := remove0xLoop s false []
  if answer.length = 0 then ['0'] else answer

/-- The characters `remove0x` skips over: `'0'` and `'x'`. -/
def is0xChar (c : Char) : Bool := c == '0' || c == 'x'

/-! ## Checkpoint store

From `src/unnamed/part_000` lines 177–207 (package-level functions) and
`src/unnamed/part_001` lines 75–102 (`Synchronizer` methods): the last
queried L1 block height persisted as 8 big-endian bytes under the fixed key
`latestBlockSynced`. The store is modelled as the content of that single cell,
`Option (List Nat)` (bytes), with `Put` assumed successful; `binary.Read`
errors when fewer than 8 bytes are available. -/

/-- Go `binary.BigEndian.PutUint64`: the 8 big-endian bytes of a `uint64`. -/
def putUint64BE (v : Nat) : List Nat :=
  [v / 2 ^ 56 % 256, v / 2 ^ 48 % 256, v / 2 ^ 40 % 256, v / 2 ^ 32 % 256,
   v / 2 ^ 24 % 256, v / 2 ^ 16 % 256, v / 2 ^ 8 % 256, v % 256]

/-- Big-endian decoding of a byte list (Go `binary.Read` on a `uint64`). -/
def readUint64BE (bs : List Nat) : Nat :=
  bs.foldl (fun acc b => acc * 256 + b) 0

/-- Error of the checkpoint `Load` path (`binary.Read` on a short buffer). -/
inductive DbError where
  | notEnoughBytes
deriving DecidableEq

/-- From `src/unnamed/part_000` lines 177–194: `latestBlockQueried` returns 0
when the key holds nothing, else big-endian-decodes the stored bytes. -/
def latestBlockQueried (store : Option (List Nat)) : Except DbError Nat :=
  match store with
  | none => .ok 0
  | some bs =>
    if 8 ≤ bs.length then .ok (readUint64BE (bs.take 8))
    else .error .notEnoughBytes

/-- From `src/unnamed/part_000` lines 196–207: `updateLatestBlockQueried`
writes `binary.BigEndian.PutUint64(b, uint64(block+1))` under the key — note
the `+1`. -/
def updateLatestBlockQueried (block : Nat) : Option (List Nat) :=
  some (putUint64BE ((block + 1) % 2 ^ 64))

namespace Synchronizer

/-- From `src/unnamed/part_001` lines 75–90: the `Synchronizer` method
`latestBlockQueried` (same body as the package-level function). -/
def latestBlockQueried (store : Option (List Nat)) : Except DbError Nat :=
  match store with
  | none => .ok 0
  | some bs =>
    if 8 ≤ bs.length then .ok (readUint64BE (bs.take 8))
    else .error .notEnoughBytes

/-- From `src/unnamed/part_001` lines 92–102: the `Synchronizer` method
`updateLatestBlockQueried` writes `uint64(block)` — without the `+1` of the
package-level variant. -/
def updateLatestBlockQueried (block : Nat) : Option (List Nat) :=
  some (putUint64BE (block % 2 ^ 64))

end Synchronizer

/-! ## Fact resolution state machine

From `src/unnamed/part_001`: the `Synchronizer` fields `facts` (pending
queue), `GpsVerifier` (fact hash → page-hash set) and `MemoryPageHash`
(page hash → carrying transaction hash) — lines 34–45 — and the
5-second-ticker poller goroutine inside `FetchStarknetState` (lines 272–290)
that inspects the head of `facts` and, when its page-hash set is present in
`GpsVerifier`, dispatches `processMemoryPages` on it, pops it, and `return`s.
Hex-string hashes are modelled as `Nat` tokens. -/

/-- Modelled from the spec: `base.Dictionary.Exist` — the `Dictionary` type of
`pkg/common` is not under `src/`; the spec describes the shared lookup tables
as maps exposing `Add`/`Get`/`Exists`. The tables are association lists. -/
def dictExist {α : Type} (d : List (Nat × α)) (k : Nat) : Bool :=
  d.any (fun e => e.1 == k)

/-- Modelled from the spec: `base.Dictionary.Get` (see `dictExist`); `none`
models Go's `nil` result for an absent key. -/
def dictGet {α : Type} (d : List (Nat × α)) (k : Nat) : Option α :=
  (d.find? (fun e => e.1 == k)).map (fun e => e.2)

/-- The shared synchronizer state guarded by the lock: the pending fact queue
and the two lookup tables (`src/unnamed/part_001` lines 34–45). -/
structure SyncState where
  facts : List Nat
  gpsVerifier : List (Nat × List Nat)
  memoryPageHash : List (Nat × Nat)
deriving DecidableEq

/-- One tick of the poller goroutine of `FetchStarknetState`
(`src/unnamed/part_001` lines 275–289): if the queue is empty, `continue`;
if the head fact's page-hash set exists in `GpsVerifier`, dispatch it
(`go s.processMemoryPages(s.facts[0])`) and pop it, else `continue`.
Returns the new state and the dispatched fact, if any. -/
def tickStep (s : SyncState) : SyncState × Option Nat :=
  match s.facts with
  | [] => (s, none)
  | f :: rest =>
    if dictExist s.gpsVerifier f then ({ s with facts := rest }, some f)
    else (s, none)

/-- The poller loop of `FetchStarknetState` (`src/unnamed/part_001` lines
272–290), run for `fuel` ticks: crucially, the source executes `return` right
after dispatching one fact, so the loop ends at the first dispatch. Returns
the final state and the list of facts dispatched over the whole run. -/
def pollerRun : Nat → SyncState → SyncState × List Nat
  | 0, s => (s, [])
  | fuel + 1, s =>
    match tickStep s with
    | (s1, some f) => (s1, [f])
    | (s1, none) => pollerRun fuel s1

/-- Outcome of `processMemoryPages`: the collected page payloads, a process
panic (a `nil` `Dictionary.Get` result type-asserted), or an early `return`
after a failed L1 transaction fetch. -/
inductive PageResult where
  | pages (ps : List Nat)
  | panicked
  | fetchFailed
deriving DecidableEq

/-- The per-page loop of `processMemoryPages` (`src/unnamed/part_001` lines
549–571): look each page hash up in `MemoryPageHash` (a missing entry gives a
`nil` interface whose type assertion panics), fetch the carrying transaction
from L1 (`ethTx`, the external client; `none` is a fetch error, on which the
source `return`s dropping the fact), and accumulate the transaction input
data. -/
def processPagesLoop (mem : List (Nat × Nat)) (ethTx : Nat → Option Nat) :
    List Nat → List Nat → PageResult
  | [], acc => .pages acc
  | p :: rest, acc =>
    match dictGet mem p with
    | none => .panicked
    | some txHash =>
      match ethTx txHash with
      | none => .fetchFailed
      | some txData => processPagesLoop mem ethTx rest (acc ++ [txData])

/-- From `src/unnamed/part_001` lines 541–573: `processMemoryPages` reads the
fact's page-hash set from `GpsVerifier` (type-asserting the `Get` result, so
an absent fact panics) and walks the per-page loop. -/
def processMemoryPages (s : SyncState) (ethTx : Nat → Option Nat)
    (fact : Nat) : PageResult :=
  match dictGet s.gpsVerifier fact with
  | none => .panicked
  | some memoryPages => processPagesLoop s.memoryPageHash ethTx memoryPages []

/-! ## Event ingestion pipeline: backfill

From `src/unnamed/part_001`, `loadEvents` lines 134–174: starting at the
deployment-block floor, while `i < latestBlockNumber` issue one `FilterLogs`
query with `FromBlock = i`, `ToBlock = i + MaxChunk` (both inclusive, per
Ethereum log-filter semantics) over the three watched addresses, decode each
returned log (`UnpackIntoMap`; a decode error skips the log), and advance
`i += MaxChunk`. -/

/-- From `src/unnamed/part_001` line 32: the backfill window width. -/
def MaxChunk : Nat := 10000

/-- A raw L1 log of the synthetic log source: its block number, emitting
address, payload, and whether the ABI decode of its data succeeds. -/
structure L1Log where
  blockNumber : Nat
  address : Nat
  data : Nat
  decodable : Bool
deriving DecidableEq

/-- A decoded typed event (`eventStruct` of `src/unnamed/part_001` lines
111–115), keyed by the emitting contract address. -/
structure EventStruct where
  address : Nat
  data : Nat
deriving DecidableEq

/-- ABI decoding of one log (`UnpackIntoMap`): fails exactly on
non-decodable logs, which the source skips with `continue`. -/
def decodeLog (l : L1Log) : Option EventStruct :=
  if l.decodable then some ⟨l.address, l.data⟩ else none

/-- The external `FilterLogs` collaborator over a synthetic log source:
logs whose block lies in the inclusive `[fromBlock, toBlock]` range and whose
emitting address is watched. -/
def filterLogs (src : List L1Log) (fromBlock toBlock : Nat)
    (addresses : List Nat) : List L1Log :=
  src.filter (fun l =>
    decide (fromBlock ≤ l.blockNumber) && decide (l.blockNumber ≤ toBlock) &&
      addresses.contains l.address)

/-- The window sequence generated by the backfill loop of `loadEvents`
(lines 136–174): from `i`, while `i < head`, the window `(i, i + MaxChunk)`,
then `i += MaxChunk`. `fuel` bounds the iteration count (any
`fuel ≥ head - i` is exact). -/
def mkWindows : Nat → Nat → Nat → List (Nat × Nat)
  | 0, _, _ => []
  | fuel + 1, i, head =>
    if i < head then (i, i + MaxChunk) :: mkWindows fuel (i + MaxChunk) head
    else []

/-- The backfill phase of `loadEvents` (`src/unnamed/part_001` lines 134–174)
over a synthetic log source: one `filterLogs` query per window, each returned
log decoded (decode failures skipped), all emitted in order on the single
event stream. -/
def loadEventsBackfill (src : List L1Log) (addresses : List Nat)
    (initialBlock head : Nat) : List EventStruct :=
  (mkWindows (head - initialBlock) initialBlock head).flatMap
    (fun w => (filterLogs src w.1 w.2 addresses).filterMap decodeLog)

/-! ## Helper lemmas -/

theorem P_pos : 0 < P := by decide

theorem Digest_lt (a b : Nat) : Digest a b < P := by
  unfold Digest affineX mulm
  exact Nat.mod_lt _ P_pos

theorem digestE_ok (a b : Nat) (ha : a < P) (hb : b < P) :
    digestE a b = .ok (Digest a b) := by
  unfold digestE
  exact if_pos ⟨ha, hb⟩

theorem contractState_committed (ch sr : Nat) (h1 : ch < P) (h2 : sr < P) :
    contractState ch sr =
      .committed (Digest (Digest (Digest ch sr) 0) 0) := by
  simp [contractState, digestE_ok, h1, h2, Digest_lt, P_pos]

theorem contractState_invalid (ch sr : Nat) (h : ¬(ch < P ∧ sr < P)) :
    contractState ch sr = .panicked := by
  unfold contractState digestE
  rw [if_neg h]

theorem read_put_roundtrip (v : Nat) (hv : v < 2 ^ 64) :
    readUint64BE ((putUint64BE v).take 8) = v := by
  simp [putUint64BE, readUint64BE]
  omega

/-! ## Claim theorems -/

/-- C1: `Digest` is deterministic (it is a pure function: two runs on the same
inputs give the same result) and matches the published reference vectors —
both canonical StarkWare vectors of `TestDigest`
(`src/assets/js/066d965a.ffec5289.js` lines 32–57), the first of which is also
`ExampleDigest` (lines 20–27): `Digest(0x3d937c…1cb, 0x208a0a…31a) =
0x30e480…c662`. Verified by kernel computation of the modelled hash. -/
theorem digest_deterministic_and_reference_vectors :
    (∀ a b : Nat, Digest a b = Digest a b) ∧
    Digest 0x3d937c035c878245caf64531a5756109c53068da139362728feb561405371cb
        0x208a0a10250e382e1e4bbe2880906c2791bf6275695e02fbbc6aeff9cd8b31a =
      0x30e480bed5fe53fa909cc0f8c4d99b8f9f2c016be4c41e13a4848797979c662 ∧
    Digest 0x58f580910a6ca59b28927c08fe6c43e2e303ca384badc365795fc645d479d45
        0x78734f65a067be9bdb39de18434d71e79f7b6466a4b66bbd979ab9e7515fe0b =
      0x68cc0b76cddd1dd4ed2301ada9b7c872b23875d5ff837b3a87993e0d9996b87 :=
  ⟨fun _ _ => rfl, by decide, by decide⟩

/-- C2: for every pair of field elements, the per-contract commitment computed
by `contractState` (`src/unnamed/part_000` lines 69–96) is exactly
`Digest(Digest(Digest(contractHash, storageRoot), 0), 0)` — three chained
`Digest` applications with 0 as the second argument of the outer two. -/
theorem contractState_three_chained_digests (contractHash storageRoot : Nat)
    (h1 : contractHash < P) (h2 : storageRoot < P) :
    contractState contractHash storageRoot =
      .committed (Digest (Digest (Digest contractHash storageRoot) 0) 0) :=
  contractState_committed contractHash storageRoot h1 h2

/-- Witness for C2 at the concrete field elements `(1, 2)`. -/
theorem contractState_three_chained_digests_witness :
    (1 : Nat) < P ∧ (2 : Nat) < P ∧
      contractState 1 2 = .committed (Digest (Digest (Digest 1 2) 0) 0) :=
  ⟨by decide, by decide, contractState_three_chained_digests 1 2 (by decide) (by decide)⟩

/-- C3: `ArrayDigest` chains `Digest` pairwise over the sequence and folds in
the sequence length as a final input; it is defined (total, hence
deterministic) for the empty sequence, where it reduces to the base case
`Digest 0 0`; and it matches the `TestArrayDigest` reference vector
`ArrayDigest([1,2,3,4,5]) = 0x79c2…454a`
(`src/assets/js/066d965a.ffec5289.js` lines 75–107), verified by kernel
computation. -/
theorem arrayDigest_chains_and_reference_vector :
    (∀ xs : List Nat, ArrayDigest xs = Digest (xs.foldl Digest 0) xs.length) ∧
    ArrayDigest [] = Digest 0 0 ∧
    ArrayDigest [1, 2, 3, 4, 5] =
      0x79c2de2c34baea4a6aa66288140b205e075dd05177c3e05222f48fb6808454a :=
  ⟨fun _ => rfl, rfl, by decide⟩

/-- C8 counterexample: at the concrete input `contractHash = P` (not a field
element, so the first `Digest` call fails), `contractState` takes the
`log.Panic` path — the process panics; it does not surface as a halted
materializer. This refutes the claim that the failure "surfaces as a halted
materializer rather than a process panic". -/
theorem digest_failure_panics_counterexample :
    contractState P 0 = .panicked ∧ contractState P 0 ≠ .halted :=
  ⟨by decide, by decide⟩

/-- C8 amended: if a `Digest` call fails while computing a contract's
commitment, `contractState` commits nothing for that contract (it produces no
leaf value, so no partial write from it), but the failure surfaces as a
process panic (`log.Default...Panic`), never as a halted materializer — it
panics exactly when an input is not a field element. -/
theorem digest_failure_aborts_via_panic (ch sr : Nat) :
    (contractState ch sr = .panicked ↔ ¬(ch < P ∧ sr < P)) ∧
    contractState ch sr ≠ .halted := by
  by_cases h : ch < P ∧ sr < P
  · have hc := contractState_committed ch sr h.1 h.2
    simp [hc, h]
  · have hc := contractState_invalid ch sr h
    simp [hc, h]

/-- C9: cold start — when the store holds no value under the fixed checkpoint
key, `Load` returns height 0 and no error, in both the package-level
`latestBlockQueried` (`src/unnamed/part_000` lines 177–194) and the
`Synchronizer` method (`src/unnamed/part_001` lines 75–90). -/
theorem coldstart_load_returns_zero :
    latestBlockQueried none = .ok 0 ∧
      Synchronizer.latestBlockQueried none = .ok 0 :=
  ⟨rfl, rfl⟩

/-- C5 counterexample: after the package-level `updateLatestBlockQueried`
persists height 5 (`src/unnamed/part_000` lines 196–207 store `block + 1`),
`latestBlockQueried` returns 6, not 5 — refuting, at the concrete height 5,
the claim that `Save(h)` followed by `Load()` yields exactly `h`. -/
theorem checkpoint_roundtrip_counterexample :
    latestBlockQueried (updateLatestBlockQueried 5) = .ok 6 ∧ (6 : Nat) ≠ 5 :=
  ⟨by rfl, by decide⟩

/-- C5 amended: the `Synchronizer` method pair round-trips exactly — after
`Synchronizer.updateLatestBlockQueried h` (which stores `uint64(h)` as 8
big-endian bytes under the fixed key), `Synchronizer.latestBlockQueried`
returns exactly `h`; the package-level pair in the same package stores
`h + 1`, so loading after it returns `h + 1`. -/
theorem checkpoint_roundtrip_amended (h : Nat) (hh : h + 1 < 2 ^ 64) :
    Synchronizer.latestBlockQueried (Synchronizer.updateLatestBlockQueried h) =
        .ok h ∧
      latestBlockQueried (updateLatestBlockQueried h) = .ok (h + 1) := by
  have h64 : h < 2 ^ 64 := Nat.lt_of_succ_lt hh
  have hkey : ∀ bs : List Nat, 8 ≤ bs.length →
      latestBlockQueried (some bs) = .ok (readUint64BE (bs.take 8)) := by
    intro bs hb
    simp [latestBlockQueried, hb]
  have hkey2 : ∀ bs : List Nat, 8 ≤ bs.length →
      Synchronizer.latestBlockQueried (some bs) = .ok (readUint64BE (bs.take 8)) := by
    intro bs hb
    simp [Synchronizer.latestBlockQueried, hb]
  constructor
  · simp only [Synchronizer.updateLatestBlockQueried]
    rw [Nat.mod_eq_of_lt h64, hkey2 _ (by simp [putUint64BE]),
      read_put_roundtrip h h64]
  · simp only [updateLatestBlockQueried]
    rw [Nat.mod_eq_of_lt hh, hkey _ (by simp [putUint64BE]),
      read_put_roundtrip (h + 1) hh]

/-- Witness for the amended C5 at the concrete height 5. -/
theorem checkpoint_roundtrip_amended_witness :
    Synchronizer.latestBlockQueried (Synchronizer.updateLatestBlockQueried 5) =
        .ok 5 ∧
      latestBlockQueried (updateLatestBlockQueried 5) = .ok 6 :=
  checkpoint_roundtrip_amended 5 (by decide)

/-! ## remove0x lemmas -/

theorem remove0xLoop_found (s : List Char) :
    ∀ acc, remove0xLoop s true acc = acc ++ s := by
  induction s with
  | nil => intro acc; simp [remove0xLoop]
  | cons c rest ih => intro acc; simp [remove0xLoop, ih]

theorem remove0xLoop_false (s : List Char) :
    remove0xLoop s false [] = s.dropWhile is0xChar := by
  induction s with
  | nil => simp [remove0xLoop, List.dropWhile]
  | cons c rest ih =>
    by_cases hc : is0xChar c = true
    · have hb : (c != '0' && c != 'x') = false := by
        simp [is0xChar] at hc
        rcases hc with h | h <;> simp [h]
      simp [remove0xLoop, hb, List.dropWhile, hc, ih]
    · have hb : (c != '0' && c != 'x') = true := by
        simp [is0xChar] at hc
        simp [hc.1, hc.2]
      simp [remove0xLoop, hb, List.dropWhile, hc, remove0xLoop_found]

/-- C10: `remove0x` (`src/unnamed/part_000` lines 98–112) returns the suffix
of its input beginning at the first character that is neither `'0'` nor `'x'`
— it strips all leading `'0'`/`'x'` characters, not merely one `"0x"` prefix —
and returns `['0']` whenever the input (the empty string included) consists
solely of `'0'` and `'x'` characters, i.e. whenever that suffix is empty. -/
theorem remove0x_strips_leading_zero_x (s : List Char) :
    remove0x s =
      if (s.dropWhile is0xChar).isEmpty then ['0']
      else s.dropWhile is0xChar := by
  cases h : s.dropWhile is0xChar <;>
    simp [remove0x, remove0xLoop_false, h]

/-! ## Poller lemmas -/

theorem pollerRun_dispatches_at_most_one (fuel : Nat) (s : SyncState) :
    ((pollerRun fuel s).2).length ≤ 1 := by
  induction fuel generalizing s with
  | zero => simp [pollerRun]
  | succ n ih =>
    simp only [pollerRun]
    rcases htick : tickStep s with ⟨s1, fo⟩
    cases fo with
    | none => simpa using ih s1
    | some f => simp

/-- C4 counterexample: in the concrete state with pending queue `[1]`, the
page-hash set of fact 1 recorded as `[7]`, and an empty
page-hash→transaction table, the poller tick dispatches fact 1 (processing
begins) although page 7's carrying transaction is not recorded — and the
processing that begins then hits the missing entry (the `nil` `Get` result is
type-asserted, a panic). This refutes the claim that processing begins only
after every page's carrying transaction is recorded. -/
theorem fact_dispatch_without_page_txs_counterexample :
    tickStep ⟨[1], [(1, [7])], []⟩ = (⟨[], [(1, [7])], []⟩, some 1) ∧
    dictExist (SyncState.mk [1] [(1, [7])] []).memoryPageHash 7 = false ∧
    processMemoryPages ⟨[1], [(1, [7])], []⟩ (fun t => some t) 1 = .panicked :=
  ⟨by decide, by decide, by rfl⟩

/-- C4 amended: the poller (`src/unnamed/part_001` lines 272–290) dispatches
the head fact only after that fact's full page-hash set is recorded in
`GpsVerifier` — but it does not require the pages' carrying transactions to be
recorded first (those are looked up only during processing) — and it pops the
dispatched fact from the queue; moreover a poller run dispatches at most one
fact (the goroutine returns after the first dispatch), so no fact is
dispatched twice. -/
theorem fact_dispatch_requires_pages_known :
    (∀ (s s1 : SyncState) (f : Nat), tickStep s = (s1, some f) →
      dictExist s.gpsVerifier f = true ∧ s.facts.head? = some f ∧
        s1.facts = s.facts.tail) ∧
    (∀ (fuel : Nat) (s : SyncState), ((pollerRun fuel s).2).length ≤ 1) := by
  constructor
  · intro s s1 f h
    rcases s with ⟨facts, gps, mem⟩
    cases facts with
    | nil => simp [tickStep] at h
    | cons f0 rest =>
      by_cases hex : dictExist gps f0 = true
      · simp [tickStep, hex] at h
        obtain ⟨h1, h2⟩ := h
        subst h2
        simp [hex, ← h1]
      · simp [tickStep, hex] at h
  · exact pollerRun_dispatches_at_most_one

/-- Witness for the amended C4: the dispatch conditions evaluated in the
concrete state whose head fact has its page-hash set recorded. -/
theorem fact_dispatch_requires_pages_known_witness :
    dictExist (SyncState.mk [1] [(1, [7])] [(7, 9)]).gpsVerifier 1 = true ∧
      (SyncState.mk [1] [(1, [7])] [(7, 9)]).facts.head? = some 1 ∧
      (SyncState.mk [] [(1, [7])] [(7, 9)]).facts =
        (SyncState.mk [1] [(1, [7])] [(7, 9)]).facts.tail :=
  fact_dispatch_requires_pages_known.1
    (SyncState.mk [1] [(1, [7])] [(7, 9)])
    (SyncState.mk [] [(1, [7])] [(7, 9)]) 1 (by decide)

/-- C7: the fact-resolution poller does not keep draining the queue — the
goroutine in `FetchStarknetState` (`src/unnamed/part_001` line 286) executes
`return` right after popping and dispatching one resolvable fact, terminating
its ticker loop. Evaluated at the failing input: a pending queue `[1, 2]`
where both facts' page-hash sets (and even all page transactions) are
recorded, the run dispatches exactly `[1]` and ends — for every amount of
remaining fuel — leaving the resolvable fact 2 queued forever. This
contradicts the claim (and the spec's own §9 note flags the single-fact
`return` as very likely unintended, so the code, not the claim, is wrong). -/
theorem poller_returns_after_single_fact :
    ∀ fuel : Nat,
      pollerRun (fuel + 1)
          ⟨[1, 2], [(1, [5]), (2, [6])], [(5, 100), (6, 101)]⟩ =
        (⟨[2], [(1, [5]), (2, [6])], [(5, 100), (6, 101)]⟩, [1]) ∧
      dictExist [((1 : Nat), [(5 : Nat)]), (2, [6])] 2 = true := by
  intro fuel
  constructor
  · have h : tickStep ⟨[1, 2], [(1, [5]), (2, [6])], [(5, 100), (6, 101)]⟩ =
        (⟨[2], [(1, [5]), (2, [6])], [(5, 100), (6, 101)]⟩, some 1) := by
      decide
    simp only [pollerRun]
    rw [h]
  · decide

/-! ## Backfill window lemmas -/

theorem mkWindows_head_eq (fuel i head : Nat) (w : Nat × Nat)
    (ws : List (Nat × Nat)) (h : mkWindows fuel i head = w :: ws) :
    w.1 = i := by
  cases fuel with
  | zero => simp [mkWindows] at h
  | succ n =>
    unfold mkWindows at h
    by_cases hi : i < head
    · rw [if_pos hi] at h
      injection h with h1 _
      rw [← h1]
    · rw [if_neg hi] at h
      cases h

theorem mkWindows_chain (fuel : Nat) :
    ∀ i head : Nat,
      List.Chain' (fun a b : Nat × Nat => b.1 = a.2) (mkWindows fuel i head) := by
  induction fuel with
  | zero => intro i head; simp [mkWindows]
  | succ n ih =>
    intro i head
    unfold mkWindows
    by_cases hi : i < head
    · rw [if_pos hi]
      refine List.Chain'.cons' (ih (i + MaxChunk) head) ?_
      intro y hy
      rcases hl : mkWindows n (i + MaxChunk) head with _ | ⟨w, ws⟩
      · rw [hl] at hy; simp at hy
      · rw [hl] at hy
        simp at hy
        rw [← hy]
        exact mkWindows_head_eq n (i + MaxChunk) head w ws hl
    · rw [if_neg hi]
      exact List.chain'_nil

theorem window_cover (fuel : Nat) :
    ∀ i head b : Nat, i ≤ b → b < head → head ≤ i + fuel →
      ∃ w ∈ mkWindows fuel i head, w.1 ≤ b ∧ b ≤ w.2 := by
  induction fuel with
  | zero => intro i head b h1 h2 h3; omega
  | succ n ih =>
    intro i head b h1 h2 h3
    have hi : i < head := Nat.lt_of_le_of_lt h1 h2
    unfold mkWindows
    rw [if_pos hi]
    by_cases hb : b ≤ i + MaxChunk
    · exact ⟨(i, i + MaxChunk), List.mem_cons_self _ _, h1, hb⟩
    · have hmc : MaxChunk = 10000 := rfl
      obtain ⟨w, hw, hw1, hw2⟩ :=
        ih (i + MaxChunk) head b (by omega) h2 (by omega)
      exact ⟨w, List.mem_cons_of_mem _ hw, hw1, hw2⟩

/-- C6 counterexample: a synthetic log source with a single decodable log at
block 10000 (the boundary block of the first backfill window), with
`initialBlock = 0` and chain head 10001: the loop issues the window queries
`[0, 10000]` and `[10000, 20000]`, whose inclusive ranges overlap at block
10000, so the decoded-event stream contains that log's event twice — refuting
the claim that each matching log appears exactly once and no window's range
overlaps another's. -/
theorem backfill_duplicate_boundary_counterexample :
    loadEventsBackfill [⟨10000, 5, 77, true⟩] [5] 0 10001 =
      [⟨5, 77⟩, ⟨5, 77⟩] ∧
    mkWindows (10001 - 0) 0 10001 = [(0, 10000), (10000, 20000)] :=
  ⟨by decide, by decide⟩

/-- C6 amended: for every synthetic log source, the decoded-event stream
produced by the backfill loop of `loadEvents` (`src/unnamed/part_001` lines
134–174) contains the union of all windows' matching decodable logs — every
matching log appears at least once — but the windows are not disjoint:
consecutive windows always overlap in exactly their boundary block (each
window is the inclusive block range `[i, i + MaxChunk]` and the next window
starts at that window's ToBlock), so a matching log whose block is a shared
boundary appears twice, as in the concrete two-window run. -/
theorem backfill_union_with_boundary_overlap :
    (∀ (src : List L1Log) (addrs : List Nat) (init head : Nat) (l : L1Log),
      l ∈ src → l.decodable = true → l.address ∈ addrs →
        init ≤ l.blockNumber → l.blockNumber < head →
        (⟨l.address, l.data⟩ : EventStruct) ∈
          loadEventsBackfill src addrs init head) ∧
    (∀ fuel i head : Nat,
      List.Chain' (fun a b : Nat × Nat => b.1 = a.2) (mkWindows fuel i head)) ∧
    loadEventsBackfill [⟨10000, 5, 77, true⟩] [5] 0 10001 =
      [⟨5, 77⟩, ⟨5, 77⟩] := by
  refine ⟨?_, fun fuel => mkWindows_chain fuel, by decide⟩
  intro src addrs init head l hl hdec haddr h1 h2
  obtain ⟨w, hw, hw1, hw2⟩ :=
    window_cover (head - init) init head l.blockNumber h1 h2 (by omega)
  unfold loadEventsBackfill
  refine List.mem_flatMap.mpr ⟨w, hw, ?_⟩
  refine List.mem_filterMap.mpr ⟨l, ?_, by simp [decodeLog, hdec]⟩
  unfold filterLogs
  refine List.mem_filter.mpr ⟨hl, ?_⟩
  simp [hw1, hw2, haddr]

/-- Witness for the amended C6: the membership component applied to the
concrete one-log source. -/
theorem backfill_union_with_boundary_overlap_witness :
    (⟨5, 77⟩ : EventStruct) ∈
      loadEventsBackfill [⟨10000, 5, 77, true⟩] [5] 0 10001 :=
  backfill_union_with_boundary_overlap.1 [⟨10000, 5, 77, true⟩] [5] 0 10001
    ⟨10000, 5, 77, true⟩ (by decide) (by decide) (by decide) (by decide)
    (by decide)
